import Mathlib

/-!
Verification of the job-dependency pipeline of `dashboard/server/slurm`
(`pipeline.py` and `constant.py`).

The embedding models Python values flowing through the tree codec and the
dependency compiler as the inductive type `JVal` (JSON-like values: `None`,
strings, lists, dicts), Python dicts as association lists in insertion order,
and `dict.pop` as `popField`.  Raised Python exceptions are modelled with
`Except`: `KeyError` from `dict.pop`, `TypeError` from keyword-argument
binding or `str.join`, `AttributeError` from calling `.pop` or `.gen` on an
object that lacks the attribute, and the `RuntimeError("Unknown type: ...")`
of `JobNode.from_json` as `unknownType`.
-/

/-- Python values appearing in snapshots and in the generation pass. -/
inductive JVal where
  | vnull
  | vstr (s : String)
  | varr (elems : List JVal)
  | vobj (fields : List (String × JVal))

/-- The `Job` leaf of `pipeline.py`: `Job.__init__(self, script, profile,
job_id=None, slurm_jobid=None)` stores exactly these four attributes. -/
structure Job where
  script : JVal
  profile : JVal
  job_id : JVal
  slurm_jobid : JVal

/-- The tree of `pipeline.py`: `Job`, `Sequential`, `Parallel` (subclasses of
`JobNode`) and `Pipeline` (a separate class, also produced and consumed by the
codec).  `Sequential.__init__` and `Parallel.__init__` keep `name` and the
child tuple; `Pipeline.__init__(self, name, job_definition, job_id=None)`
keeps `name`, the definition and `job_id`. -/
inductive JobNode where
  | job (j : Job)
  | sequential (name : JVal) (jobs : List JobNode)
  | parallel (name : JVal) (jobs : List JobNode)
  | pipeline (name : JVal) (job_id : JVal) (definition : JobNode)

mutual
/-- The `__json__` methods: `Job.__json__`, `Sequential.__json__`,
`Parallel.__json__`, `Pipeline.__json__`, each building a dict literal in the
written key order. -/
def JobNode.json : JobNode → JVal
  | .job j => .vobj [("type", .vstr "job"), ("script", j.script), ("profile", j.profile),
      ("job_id", j.job_id), ("slurm_jobid", j.slurm_jobid)]
  | .sequential name jobs => .vobj [("type", .vstr "sequential"), ("name", name),
      ("jobs", .varr (JobNode.jsonList jobs))]
  | .parallel name jobs => .vobj [("type", .vstr "parallel"), ("name", name),
      ("jobs", .varr (JobNode.jsonList jobs))]
  | .pipeline name jid d => .vobj [("type", .vstr "pipeline"), ("definition", JobNode.json d),
      ("job_id", jid), ("name", name)]

/-- The list comprehension `[job.__json__() for job in self.jobs]`. -/
def JobNode.jsonList : List JobNode → List JVal
  | [] => []
  | n :: ns => JobNode.json n :: JobNode.jsonList ns
end

/-- `dict.pop(k)`: returns the value bound to `k` together with the dict
after removal, or `none` when the key is absent (Python raises `KeyError`). -/
def popField (k : String) : List (String × JVal) → Option (JVal × List (String × JVal))
  | [] => none
  | (k', v) :: rest =>
    if k' = k then some (v, rest)
    else match popField k rest with
      | some (v', rest') => some (v', (k', v) :: rest')
      | none => none

/-- Errors raised while decoding a snapshot. -/
inductive DecodeError where
  | keyError (k : String)
  | typeError
  | attributeError
  | unknownType (t : JVal)

/-- Binding of an optional keyword argument with default `dflt`: consumes the
binding when present, otherwise leaves the dict as is. -/
def popKw (k : String) (dflt : JVal) (fields : List (String × JVal)) :
    JVal × List (String × JVal) :=
  match popField k fields with
  | some (v, rest) => (v, rest)
  | none => (dflt, fields)

/-- `Job(**data)`: `script` and `profile` are required, `job_id` and
`slurm_jobid` default to `None`, any remaining keyword is a `TypeError`. -/
def buildJob (fields : List (String × JVal)) : Except DecodeError JobNode :=
  match popField "script" fields with
  | none => .error .typeError
  | some (script, r1) =>
    match popField "profile" r1 with
    | none => .error .typeError
    | some (profile, r2) =>
      let (jid, r3) := popKw "job_id" .vnull r2
      let (sjid, r4) := popKw "slurm_jobid" .vnull r3
      match r4 with
      | [] => .ok (.job ⟨script, profile, jid, sjid⟩)
      | _ :: _ => .error .typeError

/-- `Sequential(*jobs, **data)`: only the keyword `name` (default "S") is
accepted. -/
def buildSeq (jobs : List JobNode) (fields : List (String × JVal)) :
    Except DecodeError JobNode :=
  let (name, r1) := popKw "name" (.vstr "S") fields
  match r1 with
  | [] => .ok (.sequential name jobs)
  | _ :: _ => .error .typeError

/-- `Parallel(*jobs, **data)`: only the keyword `name` (default "P") is
accepted. -/
def buildPar (jobs : List JobNode) (fields : List (String × JVal)) :
    Except DecodeError JobNode :=
  let (name, r1) := popKw "name" (.vstr "P") fields
  match r1 with
  | [] => .ok (.parallel name jobs)
  | _ :: _ => .error .typeError

/-- `Pipeline(job_definition=..., **data)`: `name` is required, `job_id`
defaults to `None`, any remaining keyword is a `TypeError`. -/
def buildPipeline (d : JobNode) (fields : List (String × JVal)) :
    Except DecodeError JobNode :=
  match popField "name" fields with
  | none => .error .typeError
  | some (name, r1) =>
    let (jid, r2) := popKw "job_id" .vnull r1
    match r2 with
    | [] => .ok (.pipeline name jid d)
    | _ :: _ => .error .typeError

theorem popField_sizeOf_val {k : String} : ∀ {l : List (String × JVal)} {v rest},
    popField k l = some (v, rest) → sizeOf v < sizeOf l := by
  intro l
  induction l with
  | nil => intro v rest h; simp [popField] at h
  | cons hd tl ih =>
    intro v rest h
    obtain ⟨k', v'⟩ := hd
    simp only [popField] at h
    split at h
    · simp only [Option.some.injEq, Prod.mk.injEq] at h
      obtain ⟨h1, _⟩ := h
      subst h1
      simp only [List.cons.sizeOf_spec, Prod.mk.sizeOf_spec]
      omega
    · split at h
      · next v'' rest'' heq =>
        simp only [Option.some.injEq, Prod.mk.injEq] at h
        obtain ⟨h1, _⟩ := h
        subst h1
        have := ih heq
        simp only [List.cons.sizeOf_spec, Prod.mk.sizeOf_spec]
        omega
      · simp at h

theorem popField_sizeOf_rest {k : String} : ∀ {l : List (String × JVal)} {v rest},
    popField k l = some (v, rest) → sizeOf rest < sizeOf l := by
  intro l
  induction l with
  | nil => intro v rest h; simp [popField] at h
  | cons hd tl ih =>
    intro v rest h
    obtain ⟨k', v'⟩ := hd
    simp only [popField] at h
    split at h
    · simp only [Option.some.injEq, Prod.mk.injEq] at h
      obtain ⟨_, h2⟩ := h
      subst h2
      simp only [List.cons.sizeOf_spec, Prod.mk.sizeOf_spec]
      omega
    · split at h
      · next v'' rest'' heq =>
        simp only [Option.some.injEq, Prod.mk.injEq] at h
        obtain ⟨_, h2⟩ := h
        subst h2
        have := ih heq
        simp only [List.cons.sizeOf_spec, Prod.mk.sizeOf_spec]
        omega
      · simp at h

mutual
/-- `JobNode.from_json(data)`, with the destructive mutation of the record
made explicit in the return value: the first component is the decode result
(`Except` models the raised exceptions), the second component is the state of
the record object after the call (`data.pop` removes keys in place; nested
records popped out of the dict no longer appear in it).  Dispatches on
`data.pop("type")`: "job", "sequential", "parallel", "pipeline", anything
else raising `RuntimeError(f"Unknown type: ...")`. -/
def fromJsonM : JVal → Except DecodeError JobNode × JVal
  | .vobj fields =>
    match h1 : popField "type" fields with
    | none => (.error (.keyError "type"), .vobj fields)
    | some (t, rest) =>
      match t with
      | .vstr "job" => (buildJob rest, .vobj rest)
      | .vstr "sequential" =>
        match h2 : popField "jobs" rest with
        | none => (.error (.keyError "jobs"), .vobj rest)
        | some (.varr elems, rest2) =>
          match fromJsonList elems with
          | .ok jobs => (buildSeq jobs rest2, .vobj rest2)
          | .error e => (.error e, .vobj rest2)
        | some (_, rest2) => (.error .typeError, .vobj rest2)
      | .vstr "parallel" =>
        match h2 : popField "jobs" rest with
        | none => (.error (.keyError "jobs"), .vobj rest)
        | some (.varr elems, rest2) =>
          match fromJsonList elems with
          | .ok jobs => (buildPar jobs rest2, .vobj rest2)
          | .error e => (.error e, .vobj rest2)
        | some (_, rest2) => (.error .typeError, .vobj rest2)
      | .vstr "pipeline" =>
        match h2 : popField "definition" rest with
        | none => (.error (.keyError "definition"), .vobj rest)
        | some (d, rest2) =>
          match fromJsonM d with
          | (.ok dn, _) => (buildPipeline dn rest2, .vobj rest2)
          | (.error e, _) => (.error e, .vobj rest2)
      | other => (.error (.unknownType other), .vobj rest)
  | other => (.error .attributeError, other)
termination_by d => sizeOf d
decreasing_by
  all_goals
    (have hr := popField_sizeOf_rest h1
     have hv := popField_sizeOf_val h2
     simp only [JVal.vobj.sizeOf_spec, JVal.varr.sizeOf_spec] at hv ⊢
     omega)

/-- The list comprehension of `make_jobs`:
`[JobNode.from_json(job) for job in ...]`, stopping at the first raised
exception. -/
def fromJsonList : List JVal → Except DecodeError (List JobNode)
  | [] => .ok []
  | e :: es =>
    match fromJsonM e with
    | (.ok n, _) =>
      match fromJsonList es with
      | .ok ns => .ok (n :: ns)
      | .error e' => .error e'
    | (.error e', _) => .error e'
termination_by l => sizeOf l
decreasing_by
  all_goals (simp only [List.cons.sizeOf_spec]; omega)
end

/-- The value returned (or exception raised) by `JobNode.from_json`. -/
def fromJson (d : JVal) : Except DecodeError JobNode := (fromJsonM d).1

/-- The body of each arm of the `from_json` dispatch, split out of
`fromJsonM` with the popped discriminator and the remaining record as
arguments, so that the arms can be reasoned about without the termination
bookkeeping of the recursive definition.  `fromJsonM_typed` proves it equal
to the matching arm of `fromJsonM`. -/
def decodeTyped (t : JVal) (rest : List (String × JVal)) :
    Except DecodeError JobNode × JVal :=
  match t with
  | .vstr "job" => (buildJob rest, .vobj rest)
  | .vstr "sequential" =>
    match popField "jobs" rest with
    | none => (.error (.keyError "jobs"), .vobj rest)
    | some (.varr elems, rest2) =>
      match fromJsonList elems with
      | .ok jobs => (buildSeq jobs rest2, .vobj rest2)
      | .error e => (.error e, .vobj rest2)
    | some (_, rest2) => (.error .typeError, .vobj rest2)
  | .vstr "parallel" =>
    match popField "jobs" rest with
    | none => (.error (.keyError "jobs"), .vobj rest)
    | some (.varr elems, rest2) =>
      match fromJsonList elems with
      | .ok jobs => (buildPar jobs rest2, .vobj rest2)
      | .error e => (.error e, .vobj rest2)
    | some (_, rest2) => (.error .typeError, .vobj rest2)
  | .vstr "pipeline" =>
    match popField "definition" rest with
    | none => (.error (.keyError "definition"), .vobj rest)
    | some (d, rest2) =>
      match fromJsonM d with
      | (.ok dn, _) => (buildPipeline dn rest2, .vobj rest2)
      | (.error e, _) => (.error e, .vobj rest2)
  | other => (.error (.unknownType other), .vobj rest)

/-! Constants from `constant.py`. -/

def OR : String := "?"

def AND : String := ","

def AFTER : String := "after"

def AFTER_OK : String := "afterok"

def AFTER_ANY : String := "afterany"

def AFTER_NOT_OK : String := "afternotok"

def SINGLETON : String := "singleton"

def JOBRUNNER_WORKDIR : String := "scratch/jobrunner"

mutual
/-- Rendering of a value by a Python f-string (`repr` form, used for values
nested inside containers). -/
def pyRepr : JVal → String
  | .vnull => "None"
  | .vstr s => (Char.ofNat 39).toString ++ s ++ (Char.ofNat 39).toString
  | .varr xs => "[" ++ pyReprList xs ++ "]"
  | .vobj fs => "\x7b" ++ pyReprFields fs ++ "\x7d"

def pyReprList : List JVal → String
  | [] => ""
  | [x] => pyRepr x
  | x :: xs => pyRepr x ++ ", " ++ pyReprList xs

def pyReprFields : List (String × JVal) → String
  | [] => ""
  | [(k, v)] => (Char.ofNat 39).toString ++ k ++ (Char.ofNat 39).toString ++ ": " ++ pyRepr v
  | (k, v) :: fs =>
    (Char.ofNat 39).toString ++ k ++ (Char.ofNat 39).toString ++ ": " ++ pyRepr v ++ ", " ++ pyReprFields fs
end

/-- `str(x)` as interpolated by an f-string: a string renders as its own
characters, other values as their repr. -/
def pyStr : JVal → String
  | .vstr s => s
  | v => pyRepr v

/-- Errors raised during a generation pass. -/
inductive GenError where
  | typeError
  | attributeError

/-- `Job.gen(self, context, depends_event=AFTER_OK, depends_on=None)`: builds
the local `sbatch_args` (the dependency clause
`--dependency=<depends_event>:<depends_on>` when `depends_on` is not `None`),
performs no attribute assignment (every submission step is a comment in the
source) and returns `self.slurm_jobid`.  The first component is the state of
the job object after the call. -/
def jobGen (j : Job) (context : JVal) (depends_event : String) (depends_on : JVal) :
    Job × List String × JVal :=
  let sbatch_args : List String :=
    match depends_on with
    | .vnull => []
    | d => ["--dependency=" ++ depends_event ++ ":" ++ pyStr d]
  (j, sbatch_args, j.slurm_jobid)

/-- `':'.join(job_ids)` requires every member to be a string, else
`TypeError`. -/
def joinStrs : List JVal → Except GenError (List String)
  | [] => .ok []
  | .vstr s :: rest =>
    match joinStrs rest with
    | .ok ss => .ok (s :: ss)
    | .error e => .error e
  | _ :: _ => .error .typeError

/-- The return expression of `Parallel.gen`: `':'.join(job_ids)`. -/
def joinIds (vals : List JVal) : Except GenError JVal :=
  match joinStrs vals with
  | .ok ss => .ok (.vstr (String.intercalate ":" ss))
  | .error e => .error e

mutual
/-- A child call `job.gen(depends_on=v)` as issued by `Sequential.gen` and
`Parallel.gen`.  On a `Job` the call raises `TypeError`: `Job.gen` declares
`context` as a required positional argument which this call site does not
supply.  On a `Pipeline` the call raises `AttributeError`: `Pipeline` defines
no `gen`. -/
def genKw : JobNode → JVal → Except GenError JVal
  | .job _, _ => .error .typeError
  | .sequential _ jobs, v => seqLoop jobs v
  | .parallel _ jobs, v =>
    match genList jobs v with
    | .ok vals => joinIds vals
    | .error e => .error e
  | .pipeline _ _ _, _ => .error .attributeError

/-- The loop of `Sequential.gen`: `job_id = depends_on`, then
`job_id = job.gen(depends_on=job_id)` for each child in declared order,
returning the last `job_id`.  A raised exception propagates, so the
remaining children are never reached. -/
def seqLoop : List JobNode → JVal → Except GenError JVal
  | [], v => .ok v
  | c :: cs, v =>
    match genKw c v with
    | .ok v2 => seqLoop cs v2
    | .error e => .error e

/-- The loop of `Parallel.gen`: collects `job.gen(depends_on=depends_on)` for
every child with the same `depends_on`; a raised exception propagates. -/
def genList : List JobNode → JVal → Except GenError (List JVal)
  | [], _ => .ok []
  | c :: cs, v =>
    match genKw c v with
    | .ok r =>
      match genList cs v with
      | .ok rs => .ok (r :: rs)
      | .error e => .error e
    | .error e => .error e
end

/-- A call `node.gen(context)` with one positional argument, as issued by
`Pipeline.schedule`.  On a `Job` the argument binds to the `context`
parameter and the body runs with `depends_event=AFTER_OK` and
`depends_on=None`, returning `self.slurm_jobid`; on `Sequential` and
`Parallel` the argument binds to their only parameter `depends_on`; a
`Pipeline` has no `gen` method (`AttributeError`). -/
def genPos : JobNode → JVal → Except GenError JVal
  | .job j, context => .ok (jobGen j context AFTER_OK .vnull).2.2
  | .sequential n jobs, v => genKw (.sequential n jobs) v
  | .parallel n jobs, v => genKw (.parallel n jobs) v
  | .pipeline _ _ _, _ => .error .attributeError

/-- `os.path.join(root, name)` on strings (an absolute second component
replaces the first). -/
def osPathJoin (a b : String) : String :=
  if b.startsWith "/" then b else a ++ "/" ++ b

/-- `Pipeline.output_dir(self, root=JOBRUNNER_WORKDIR)`:
`os.path.join(root, self.name)`; a non-string name raises `TypeError`. -/
def pipelineOutputDir (name : JVal) : Except GenError String :=
  match name with
  | .vstr s => .ok (osPathJoin JOBRUNNER_WORKDIR s)
  | _ => .error .typeError

/-- The context dict built by `Pipeline.schedule`:
`{"output": [self.output_dir()]}` with no dependency entry. -/
def initialContext (dir : String) : JVal := .vobj [("output", .varr [.vstr dir])]

/-- `Pipeline.schedule(self)`: builds the context, evaluates
`self.definition.gen(context)` and falls off the end of the function body,
returning `None`; a raised exception propagates. -/
def schedule (name : JVal) (defn : JobNode) : Except GenError JVal :=
  match pipelineOutputDir name with
  | .error e => .error e
  | .ok dir =>
    match genPos defn (initialContext dir) with
    | .ok _ => .ok .vnull
    | .error e => .error e

/-! Specification-level model of the parts the source leaves unimplemented:
the submission step of `Job.gen` (comments and a stub return in the source)
and `Pipeline.rerun` (a bare `pass`).  Definitions whose doc comment starts
with `Modelled from the spec:` are taken from the specification text. -/

/-- Modelled from the spec: the per-job status recorded in the tree,
`status` in Pending, Submitted, Succeeded, Failed, Skipped. -/
inductive JStatus where
  | pending
  | submitted
  | succeeded
  | failed
  | skipped
  deriving DecidableEq

/-- Modelled from the spec: a `Job` leaf with its identity fields (`script`,
`profile`, `job_id`), the scheduler-assigned `external_id` (present only
after submission) and a `status`. -/
structure SJob where
  script : String
  profile : String
  job_id : Option String
  external_id : Option String
  status : JStatus
  deriving DecidableEq

/-- The composite tree shape of the source: job leaves, `Sequential` and
`Parallel` composites with a name and children in declared order. -/
inductive SNode where
  | job (j : SJob)
  | sequential (name : String) (jobs : List SNode)
  | parallel (name : String) (jobs : List SNode)

/-- Modelled from the spec: `SubmissionError`, raised when the external
scheduler rejects a submission directive. -/
inductive SubmissionError where
  | submissionError

/-- Modelled from the spec: the joined identifier of a `Parallel` node: the
ids of the children that produced one, combined with the AND separator. -/
def joinObserved (ids : List (Option String)) : Option String :=
  some (String.intercalate AND (ids.filterMap (fun x => x)))

mutual
/-- Modelled from the spec: `Job.generate(context)` submits the job through
the external scheduler capability `submit`; on success it records the
returned external id and the Submitted status and returns the id; on
rejection it sets `status = Failed`, records no id and raises
`SubmissionError`.  The `Sequential` arm is the loop of the source
(`Sequential.gen`): it threads the dependency id through the children in
declared order and returns the last one, a raised exception propagating
immediately so that later children are never reached.  The `Parallel` arm
submits every child with the same incoming dependency and joins the ids of
the children that succeeded (per the spec, sibling failures do not fail the
node).  The first component is the tree after the pass. -/
def generate (submit : SJob → Option String) :
    SNode → Option String → SNode × Except SubmissionError (Option String)
  | .job j, _ =>
    match submit j with
    | some i => (.job { j with external_id := some i, status := .submitted }, .ok (some i))
    | none => (.job { j with status := .failed }, .error .submissionError)
  | .sequential n js, dep =>
    match generateSeq submit js dep with
    | (js2, r) => (.sequential n js2, r)
  | .parallel n js, dep =>
    match generatePar submit js dep with
    | (js2, ids) => (.parallel n js2, .ok (joinObserved ids))

/-- The loop of `Sequential.gen` over the spec-level tree: on an exception
the remaining children are returned untouched. -/
def generateSeq (submit : SJob → Option String) :
    List SNode → Option String → List SNode × Except SubmissionError (Option String)
  | [], dep => ([], .ok dep)
  | c :: cs, dep =>
    match generate submit c dep with
    | (c2, .ok v) =>
      match generateSeq submit cs v with
      | (cs2, r) => (c2 :: cs2, r)
    | (c2, .error e) => (c2 :: cs, .error e)

/-- Modelled from the spec: the fan-out of `Parallel.generate`: every child
receives the same dependency; a child that fails contributes no id. -/
def generatePar (submit : SJob → Option String) :
    List SNode → Option String → List SNode × List (Option String)
  | [], _ => ([], [])
  | c :: cs, dep =>
    match generate submit c dep with
    | (c2, r) =>
      match generatePar submit cs dep with
      | (cs2, rs) =>
        (c2 :: cs2, (match r with | .ok v => v | .error _ => none) :: rs)
end

/-- The rerun tree: a kept `job` is eligible for resubmission; `skip` is the
Skip / pass-through marker of the spec, preserving the prior external id. -/
inductive RNode where
  | job (j : SJob)
  | skip (external_id : Option String)
  | sequential (name : String) (jobs : List RNode)
  | parallel (name : String) (jobs : List RNode)

mutual
/-- Every job leaf of the subtree has status Succeeded. -/
def allSucceeded : SNode → Bool
  | .job j => match j.status with | .succeeded => true | _ => false
  | .sequential _ js => allSucceededList js
  | .parallel _ js => allSucceededList js

def allSucceededList : List SNode → Bool
  | [] => true
  | c :: cs => allSucceeded c && allSucceededList cs
end

mutual
/-- Modelled from the spec: the prior external id(s) of a subtree: for a job
its recorded external id, for a `Sequential` the id of its last child, for a
`Parallel` the joined id of its children. -/
def priorId : SNode → Option String
  | .job j => j.external_id
  | .sequential _ js => priorIdLast js
  | .parallel _ js => joinObserved (priorIdList js)

def priorIdLast : List SNode → Option String
  | [] => none
  | [c] => priorId c
  | _ :: cs => priorIdLast cs

def priorIdList : List SNode → List (Option String)
  | [] => []
  | c :: cs => priorId c :: priorIdList cs
end

mutual
/-- Modelled from the spec: `Pipeline.rerun` (a bare `pass` in the source):
builds a new tree in which a Succeeded job becomes a `skip` marker
preserving its external id, a Failed or Pending job is kept as is, a
composite with any descendant needing resubmission is kept with its children
rebuilt, and a composite whose every descendant succeeded is pruned to a
pass-through forwarding the prior joined id. -/
def rerun : SNode → RNode
  | .job j =>
    match j.status with
    | .succeeded => .skip j.external_id
    | _ => .job j
  | .sequential n js =>
    if allSucceededList js then .skip (priorId (.sequential n js))
    else .sequential n (rerunList js)
  | .parallel n js =>
    if allSucceededList js then .skip (priorId (.parallel n js))
    else .parallel n (rerunList js)

def rerunList : List SNode → List RNode
  | [] => []
  | c :: cs => rerun c :: rerunList cs
end

mutual
/-- Number of resubmittable job leaves in a rerun tree. -/
def resubCount : RNode → Nat
  | .job _ => 1
  | .skip _ => 0
  | .sequential _ js => resubCountList js
  | .parallel _ js => resubCountList js

def resubCountList : List RNode → Nat
  | [] => 0
  | c :: cs => resubCount c + resubCountList cs
end

/-- The key list of a dict value. -/
def objKeys : JVal → List String
  | .vobj fields => fields.map Prod.fst
  | _ => []

/-- Dict subscript access without removal. -/
def objGet (k : String) : JVal → Option JVal
  | .vobj fields => (fields.find? (fun p => p.1 == k)).map Prod.snd
  | _ => none

/-- Whether a dict value has a binding for `k`. -/
def hasKey (k : String) : JVal → Bool
  | .vobj fields => fields.any (fun p => p.1 == k)
  | _ => false

/-- The successful child calls of a `Sequential.gen` pass: `ThreadOk v cs vs`
states that calling the children of `cs` in declared order, starting from the
incoming dependency value `v` and feeding each child the value returned by
the previous one, returns exactly the values `vs`. -/
inductive ThreadOk : JVal → List JobNode → List JVal → Prop where
  | nil : ∀ {v}, ThreadOk v [] []
  | cons : ∀ {v v1 c cs vs}, genKw c v = .ok v1 → ThreadOk v1 cs vs →
      ThreadOk v (c :: cs) (v1 :: vs)

/-- The successful child calls of a `Parallel.gen` pass: `ParOk v cs ids`
states that every child of `cs`, called with the same dependency value `v`,
returns a string id, the ids being `ids` in declared order. -/
inductive ParOk : JVal → List JobNode → List String → Prop where
  | nil : ∀ {v}, ParOk v [] []
  | cons : ∀ {v i c cs ids}, genKw c v = .ok (.vstr i) → ParOk v cs ids →
      ParOk v (c :: cs) (i :: ids)

/-- A concrete submission oracle for the C6 witness: accepts exactly the job
whose `job_id` is "1". -/
def submitW : SJob → Option String :=
  fun j => match j.job_id with
  | some "1" => some "X1"
  | _ => none

/-! Theorems about the codec. -/

theorem fromJsonM_noType {fields} (h1 : popField "type" fields = none) :
    fromJsonM (.vobj fields) = (.error (.keyError "type"), .vobj fields) := by
  rw [fromJsonM]
  split
  · rfl
  · next t rest heq => rw [h1] at heq; cases heq

theorem fromJsonM_typed {fields t rest} (h1 : popField "type" fields = some (t, rest)) :
    fromJsonM (.vobj fields) = decodeTyped t rest := by
  rw [fromJsonM]
  split
  · next heq => rw [h1] at heq; cases heq
  · next t' rest' heq =>
    rw [h1] at heq
    cases heq
    split
    · rfl
    · rw [decodeTyped]
      split
      · next heq2 => rw [heq2]
      · next elems r2 heq2 => rw [heq2]
      · next v r2 hne heq2 =>
        rw [heq2]
        rcases v with _ | s | es | fs
        · rfl
        · rfl
        · exact absurd rfl (hne es)
        · rfl
    · rw [decodeTyped]
      split
      · next heq2 => rw [heq2]
      · next elems r2 heq2 => rw [heq2]
      · next v r2 hne heq2 =>
        rw [heq2]
        rcases v with _ | s | es | fs
        · rfl
        · rfl
        · exact absurd rfl (hne es)
        · rfl
    · rw [decodeTyped]
      split
      · next heq2 => rw [heq2]
      · next d r2 heq2 => rw [heq2]
    · rename_i t1 tdead h1x hj hs hp hl
      rcases t1 with _ | s | es | fs
      · rfl
      · rw [decodeTyped.eq_def]
        split
        · next tx hx => exact (hj (hx ▸ h1) hx (proof_irrel_heq _ _)).elim
        · next tx hx => exact (hs (hx ▸ h1) hx (proof_irrel_heq _ _)).elim
        · next tx hx => exact (hp (hx ▸ h1) hx (proof_irrel_heq _ _)).elim
        · next tx hx => exact (hl (hx ▸ h1) hx (proof_irrel_heq _ _)).elim
        · rfl
      · rfl
      · rfl

theorem decodeTyped_unknown {t : JVal} {rest} (hj : t ≠ .vstr "job")
    (hs : t ≠ .vstr "sequential") (hp : t ≠ .vstr "parallel") (hl : t ≠ .vstr "pipeline") :
    decodeTyped t rest = (.error (.unknownType t), .vobj rest) := by
  rw [decodeTyped.eq_def]
  split
  · exact absurd rfl hj
  · exact absurd rfl hs
  · exact absurd rfl hp
  · exact absurd rfl hl
  · rfl

theorem decodeTyped_job (rest : List (String × JVal)) :
    decodeTyped (.vstr "job") rest = (buildJob rest, .vobj rest) := rfl

theorem decodeTyped_seq_eq (rest : List (String × JVal)) :
    decodeTyped (.vstr "sequential") rest =
      (match popField "jobs" rest with
       | none => (.error (.keyError "jobs"), .vobj rest)
       | some (.varr elems, rest2) =>
         (match fromJsonList elems with
          | .ok jobs => (buildSeq jobs rest2, .vobj rest2)
          | .error e => (.error e, .vobj rest2))
       | some (_, rest2) => (.error .typeError, .vobj rest2)) := rfl

theorem decodeTyped_seq {rest elems rest2} (h2 : popField "jobs" rest = some (.varr elems, rest2)) :
    decodeTyped (.vstr "sequential") rest =
      (match fromJsonList elems with
       | .ok jobs => (buildSeq jobs rest2, .vobj rest2)
       | .error e => (.error e, .vobj rest2)) := by
  rw [decodeTyped_seq_eq, h2]

theorem decodeTyped_par_eq (rest : List (String × JVal)) :
    decodeTyped (.vstr "parallel") rest =
      (match popField "jobs" rest with
       | none => (.error (.keyError "jobs"), .vobj rest)
       | some (.varr elems, rest2) =>
         (match fromJsonList elems with
          | .ok jobs => (buildPar jobs rest2, .vobj rest2)
          | .error e => (.error e, .vobj rest2))
       | some (_, rest2) => (.error .typeError, .vobj rest2)) := rfl

theorem decodeTyped_par {rest elems rest2} (h2 : popField "jobs" rest = some (.varr elems, rest2)) :
    decodeTyped (.vstr "parallel") rest =
      (match fromJsonList elems with
       | .ok jobs => (buildPar jobs rest2, .vobj rest2)
       | .error e => (.error e, .vobj rest2)) := by
  rw [decodeTyped_par_eq, h2]

theorem decodeTyped_pipe_eq (rest : List (String × JVal)) :
    decodeTyped (.vstr "pipeline") rest =
      (match popField "definition" rest with
       | none => (.error (.keyError "definition"), .vobj rest)
       | some (d, rest2) =>
         (match fromJsonM d with
          | (.ok dn, _) => (buildPipeline dn rest2, .vobj rest2)
          | (.error e, _) => (.error e, .vobj rest2))) := rfl

theorem decodeTyped_pipe {rest d rest2} (h2 : popField "definition" rest = some (d, rest2)) :
    decodeTyped (.vstr "pipeline") rest =
      (match fromJsonM d with
       | (.ok dn, _) => (buildPipeline dn rest2, .vobj rest2)
       | (.error e, _) => (.error e, .vobj rest2)) := by
  rw [decodeTyped_pipe_eq, h2]

theorem fromJsonList_nil : fromJsonList [] = .ok [] := by
  rw [fromJsonList]

theorem fromJsonList_cons {e es n ns} (h1 : (fromJsonM e).1 = .ok n)
    (h2 : fromJsonList es = .ok ns) :
    fromJsonList (e :: es) = .ok (n :: ns) := by
  rw [fromJsonList]
  split
  · next n' st heq =>
    rw [heq] at h1
    cases h1
    rw [h2]
  · next e' st heq => rw [heq] at h1; cases h1

mutual
theorem json_roundtrip_aux : ∀ t : JobNode, (fromJsonM (JobNode.json t)).1 = .ok t
  | .job ⟨s, p, jid, sjid⟩ => by
    have e1 : popField "type" [("type", .vstr "job"), ("script", s), ("profile", p),
        ("job_id", jid), ("slurm_jobid", sjid)] = some (.vstr "job",
        [("script", s), ("profile", p), ("job_id", jid), ("slurm_jobid", sjid)]) := rfl
    rw [show JobNode.json (.job ⟨s, p, jid, sjid⟩) = .vobj [("type", .vstr "job"),
      ("script", s), ("profile", p), ("job_id", jid), ("slurm_jobid", sjid)] from rfl]
    rw [fromJsonM_typed e1, decodeTyped_job]
    rfl
  | .sequential name jobs => by
    have hl := json_roundtripList_aux jobs
    have e1 : popField "type" [("type", .vstr "sequential"), ("name", name),
        ("jobs", .varr (JobNode.jsonList jobs))] = some (.vstr "sequential",
        [("name", name), ("jobs", .varr (JobNode.jsonList jobs))]) := rfl
    have e2 : popField "jobs" [("name", name), ("jobs", .varr (JobNode.jsonList jobs))] =
        some (.varr (JobNode.jsonList jobs), [("name", name)]) := rfl
    rw [show JobNode.json (.sequential name jobs) = .vobj [("type", .vstr "sequential"),
      ("name", name), ("jobs", .varr (JobNode.jsonList jobs))] from rfl]
    rw [fromJsonM_typed e1, decodeTyped_seq e2, hl]
    rfl
  | .parallel name jobs => by
    have hl := json_roundtripList_aux jobs
    have e1 : popField "type" [("type", .vstr "parallel"), ("name", name),
        ("jobs", .varr (JobNode.jsonList jobs))] = some (.vstr "parallel",
        [("name", name), ("jobs", .varr (JobNode.jsonList jobs))]) := rfl
    have e2 : popField "jobs" [("name", name), ("jobs", .varr (JobNode.jsonList jobs))] =
        some (.varr (JobNode.jsonList jobs), [("name", name)]) := rfl
    rw [show JobNode.json (.parallel name jobs) = .vobj [("type", .vstr "parallel"),
      ("name", name), ("jobs", .varr (JobNode.jsonList jobs))] from rfl]
    rw [fromJsonM_typed e1, decodeTyped_par e2, hl]
    rfl
  | .pipeline name jid d => by
    have hd := json_roundtrip_aux d
    have e1 : popField "type" [("type", .vstr "pipeline"), ("definition", JobNode.json d),
        ("job_id", jid), ("name", name)] = some (.vstr "pipeline",
        [("definition", JobNode.json d), ("job_id", jid), ("name", name)]) := rfl
    have e2 : popField "definition" [("definition", JobNode.json d), ("job_id", jid),
        ("name", name)] = some (JobNode.json d, [("job_id", jid), ("name", name)]) := rfl
    rw [show JobNode.json (.pipeline name jid d) = .vobj [("type", .vstr "pipeline"),
      ("definition", JobNode.json d), ("job_id", jid), ("name", name)] from rfl]
    rw [fromJsonM_typed e1, decodeTyped_pipe e2]
    rcases hp : fromJsonM (JobNode.json d) with ⟨r, st⟩
    rw [hp] at hd
    simp only at hd
    cases hd
    rfl
termination_by t => sizeOf t

theorem json_roundtripList_aux : ∀ ts : List JobNode,
    fromJsonList (JobNode.jsonList ts) = .ok ts
  | [] => by
    rw [show JobNode.jsonList [] = [] from rfl]
    exact fromJsonList_nil
  | t :: ts => by
    have h1 := json_roundtrip_aux t
    have h2 := json_roundtripList_aux ts
    rw [show JobNode.jsonList (t :: ts) = JobNode.json t :: JobNode.jsonList ts from rfl]
    exact fromJsonList_cons h1 h2
termination_by ts => sizeOf ts
end

/-! Helper lemmas for the generation pass. -/

theorem seqLoop_thread {v : JVal} {cs vs} (h : ThreadOk v cs vs) :
    seqLoop cs v = .ok (vs.getLastD v) := by
  induction h with
  | nil => rfl
  | cons h1 _ ih =>
    rename_i v' v1 c cs' vs'
    simp only [seqLoop, h1, ih, List.getLastD_cons]

theorem seqLoop_thread_inv : ∀ (cs : List JobNode) (v : JVal) (r : JVal),
    seqLoop cs v = .ok r → ∃ vs, ThreadOk v cs vs ∧ r = vs.getLastD v := by
  intro cs
  induction cs with
  | nil =>
    intro v r h
    rw [seqLoop] at h
    cases h
    exact ⟨[], ThreadOk.nil, rfl⟩
  | cons c cs' ih =>
    intro v r h
    rw [seqLoop] at h
    rcases hc : genKw c v with e | v1
    · rw [hc] at h; cases h
    · rw [hc] at h
      rcases ih v1 r h with ⟨vs', hts, hr⟩
      exact ⟨v1 :: vs', ThreadOk.cons hc hts, by rw [hr, List.getLastD_cons]⟩

theorem genList_parOk {v cs ids} (h : ParOk v cs ids) :
    genList cs v = .ok (ids.map JVal.vstr) := by
  induction h with
  | nil => rfl
  | cons h1 _ ih =>
    simp only [genList, h1, ih, List.map]

theorem joinStrs_map (ids : List String) : joinStrs (ids.map JVal.vstr) = .ok ids := by
  induction ids with
  | nil => rfl
  | cons i tl ih => simp only [List.map, joinStrs, ih]

theorem genList_inv : ∀ (cs : List JobNode) (v : JVal) (vals : List JVal) (ids : List String),
    genList cs v = .ok vals → joinStrs vals = .ok ids → ParOk v cs ids := by
  intro cs
  induction cs with
  | nil =>
    intro v vals ids h1 h2
    rw [genList] at h1
    cases h1
    rw [joinStrs] at h2
    cases h2
    exact ParOk.nil
  | cons c cs' ih =>
    intro v vals ids h1 h2
    rw [genList] at h1
    rcases hc : genKw c v with e | r0
    · rw [hc] at h1; cases h1
    · rw [hc] at h1
      rcases hg : genList cs' v with e | rs
      · rw [hg] at h1; cases h1
      · rw [hg] at h1
        cases h1
        rcases r0 with _ | s | es | fs
        · rw [joinStrs] at h2
          · cases h2
          · intro s hs; cases hs
        · rw [joinStrs] at h2
          rcases hj : joinStrs rs with e | ss
          · rw [hj] at h2; cases h2
          · rw [hj] at h2
            cases h2
            exact ParOk.cons hc (ih v rs ss hg hj)
        · rw [joinStrs] at h2
          · cases h2
          · intro s hs; cases hs
        · rw [joinStrs] at h2
          · cases h2
          · intro s hs; cases hs

/-! The claims. -/

/-- C1: decoding an encoded snapshot returns a tree structurally and
attribute-wise identical to the original: `from_snapshot(to_snapshot(tree))`
equals `tree` for every constructible tree (job leaves, arbitrarily nested
Sequential and Parallel composites, Pipeline roots). -/
theorem snapshot_roundtrip (t : JobNode) : fromJson (JobNode.json t) = .ok t :=
  json_roundtrip_aux t

/-- C2: decoding a record whose discriminator field `type` holds any value
other than "job", "sequential", "parallel" or "pipeline" fails with the
unknown-variant error (`RuntimeError(f"Unknown type: ...")` in the source,
the spec name for it being `UnknownVariantError`) rather than returning a
tree. -/
theorem decode_unknown_variant {fields : List (String × JVal)} {t : JVal} {rest}
    (h1 : popField "type" fields = some (t, rest))
    (hj : t ≠ .vstr "job") (hs : t ≠ .vstr "sequential")
    (hp : t ≠ .vstr "parallel") (hl : t ≠ .vstr "pipeline") :
    fromJson (.vobj fields) = .error (.unknownType t) := by
  show (fromJsonM (.vobj fields)).1 = _
  rw [fromJsonM_typed h1, decodeTyped_unknown hj hs hp hl]

/-- Witness for C2: a record with `"type": "branch"` fails with the
unknown-variant error. -/
theorem decode_unknown_variant_witness :
    fromJson (.vobj [("type", .vstr "branch")]) = .error (.unknownType (.vstr "branch")) :=
  decode_unknown_variant rfl (by simp) (by simp) (by simp) (by simp)

/-- C3 (amended): serializing a `Job` produces a record with exactly the
fields `type`, `script`, `profile`, `job_id` and `slurm_jobid` (the
scheduler-assigned id field is named `slurm_jobid`, not `external_id`), where
`type` is "job" and the other four carry the attributes of the job. -/
theorem job_snapshot_fields (j : Job) :
    objKeys (JobNode.json (.job j)) = ["type", "script", "profile", "job_id", "slurm_jobid"] ∧
    objGet "type" (JobNode.json (.job j)) = some (.vstr "job") ∧
    objGet "script" (JobNode.json (.job j)) = some j.script ∧
    objGet "profile" (JobNode.json (.job j)) = some j.profile ∧
    objGet "job_id" (JobNode.json (.job j)) = some j.job_id ∧
    objGet "slurm_jobid" (JobNode.json (.job j)) = some j.slurm_jobid :=
  ⟨rfl, rfl, rfl, rfl, rfl, rfl⟩

/-- Counterexample for C3 as stated: the serialized record of a concrete job
has no `external_id` field; the external id is stored under `slurm_jobid`. -/
theorem job_snapshot_counterexample :
    "external_id" ∉ objKeys (JobNode.json (.job ⟨.vstr "a", .vstr "b", .vnull, .vnull⟩)) ∧
    objKeys (JobNode.json (.job ⟨.vstr "a", .vstr "b", .vnull, .vnull⟩)) =
      ["type", "script", "profile", "job_id", "slurm_jobid"] :=
  ⟨by decide, rfl⟩

/-- C4 (amended): a `Parallel` whose child calls all return string ids
returns exactly those ids, in declared order, joined with ":" (the id
separator of `':'.join`), not with the AND token of `constant.py`; and
conversely any id it returns has this shape. -/
theorem parallel_gen_join (name v : JVal) (cs : List JobNode) :
    (∀ ids, ParOk v cs ids →
      genKw (.parallel name cs) v = .ok (.vstr (String.intercalate ":" ids))) ∧
    (∀ r, genKw (.parallel name cs) v = .ok r →
      ∃ ids, ParOk v cs ids ∧ r = .vstr (String.intercalate ":" ids)) := by
  constructor
  · intro ids h
    show (match genList cs v with
          | .ok vals => joinIds vals
          | .error e => .error e) = _
    rw [genList_parOk h]
    show joinIds (ids.map JVal.vstr) = _
    simp only [joinIds, joinStrs_map]
  · intro r h
    replace h : (match genList cs v with
          | .ok vals => joinIds vals
          | .error e => .error e) = .ok r := h
    rcases hg : genList cs v with e | vals
    · rw [hg] at h; cases h
    · rw [hg] at h
      simp only [joinIds] at h
      rcases hj : joinStrs vals with e | ids
      · rw [hj] at h; cases h
      · rw [hj] at h
        cases h
        exact ⟨ids, genList_inv cs v vals ids hg hj, rfl⟩

/-- Witness for C4 (amended): two children that return "1" produce the
joined id "1:1". -/
theorem parallel_gen_join_witness :
    genKw (.parallel (.vstr "P") [.sequential (.vstr "S") [], .sequential (.vstr "S") []])
      (.vstr "1") = .ok (.vstr (String.intercalate ":" ["1", "1"])) :=
  (parallel_gen_join (.vstr "P") (.vstr "1")
    [.sequential (.vstr "S") [], .sequential (.vstr "S") []]).1 ["1", "1"]
    (ParOk.cons rfl (ParOk.cons rfl ParOk.nil))

/-- Counterexample for C4 as stated: the joined id uses ":" and differs from
the AND-joined identifier built with the reserved AND token ",". -/
theorem parallel_join_counterexample :
    genKw (.parallel (.vstr "P") [.sequential (.vstr "S") [], .sequential (.vstr "S") []])
      (.vstr "1") = .ok (.vstr "1:1") ∧
    JVal.vstr "1:1" ≠ .vstr (String.intercalate AND ["1", "1"]) :=
  ⟨rfl, by intro h; injection h with h2; exact absurd h2 (by decide)⟩

/-- C5: `Sequential.gen` passes its incoming dependency value unchanged to
the first child, passes each later child the id returned by its predecessor
(the child call leaves `depends_event` at its declared default `AFTER_OK`),
and returns the id returned by the last child (the incoming value when there
are no children); conversely any id it returns arises from such a chain. -/
theorem sequential_gen_threads (name ctx : JVal) (cs : List JobNode) :
    (∀ vs, ThreadOk ctx cs vs → genKw (.sequential name cs) ctx = .ok (vs.getLastD ctx)) ∧
    (∀ r, genKw (.sequential name cs) ctx = .ok r →
      ∃ vs, ThreadOk ctx cs vs ∧ r = vs.getLastD ctx) :=
  ⟨fun _ h => seqLoop_thread h, fun r h => seqLoop_thread_inv cs ctx r h⟩

/-- Witness for C5: a chain of one child returning the incoming value "7". -/
theorem sequential_gen_threads_witness :
    genKw (.sequential (.vstr "S") [.sequential (.vstr "I") []]) (.vstr "7") =
      .ok (([.vstr "7"] : List JVal).getLastD (.vstr "7")) :=
  (sequential_gen_threads (.vstr "S") (.vstr "7") [.sequential (.vstr "I") []]).1
    [.vstr "7"] (ThreadOk.cons rfl ThreadOk.nil)

/-- C7 (amended): `Pipeline.schedule` builds the initial context (the output
directory of the run, no dependency entry) and delegates to
`definition.gen(context)`, but its own return value is `None` whenever
generation returns (there is no return statement); exceptions propagate. -/
theorem schedule_delegates (s : String) (defn : JobNode) :
    (∀ r, genPos defn (initialContext (osPathJoin JOBRUNNER_WORKDIR s)) = .ok r →
      schedule (.vstr s) defn = .ok .vnull) ∧
    (∀ e, genPos defn (initialContext (osPathJoin JOBRUNNER_WORKDIR s)) = .error e →
      schedule (.vstr s) defn = .error e) := by
  have hs : schedule (.vstr s) defn =
      (match genPos defn (initialContext (osPathJoin JOBRUNNER_WORKDIR s)) with
       | .ok _ => .ok .vnull
       | .error e => .error e) := rfl
  constructor
  · intro r hr; rw [hs, hr]
  · intro e he; rw [hs, he]

/-- Witness for C7 (amended): a pipeline over a job with a recorded slurm id
generates successfully and `schedule` returns `None`. -/
theorem schedule_delegates_witness :
    schedule (.vstr "run") (.job ⟨.vstr "a", .vstr "b", .vnull, .vstr "42"⟩) = .ok .vnull :=
  (schedule_delegates "run" (.job ⟨.vstr "a", .vstr "b", .vnull, .vstr "42"⟩)).1
    (.vstr "42") rfl

/-- Counterexample for C7 as stated: `schedule` returns `None` even though
`definition.gen(context)` returned the id "42", so its return value is not
the value returned by `definition.gen`. -/
theorem schedule_return_counterexample :
    schedule (.vstr "p") (.job ⟨.vstr "a", .vstr "b", .vnull, .vstr "42"⟩) = .ok .vnull ∧
    genPos (.job ⟨.vstr "a", .vstr "b", .vnull, .vstr "42"⟩)
      (initialContext (osPathJoin JOBRUNNER_WORKDIR "p")) = .ok (.vstr "42") ∧
    (Except.ok JVal.vnull : Except GenError JVal) ≠ .ok (.vstr "42") :=
  ⟨rfl, rfl, by simp⟩

/-- C9: submitting a job (`Job.gen`) leaves its identity fields unchanged:
`job_id`, `script` and `profile` are the same after the call as before (the
body performs no attribute assignment at all). -/
theorem job_gen_preserves_identity (j : Job) (context : JVal) (depends_event : String)
    (depends_on : JVal) :
    (jobGen j context depends_event depends_on).1.job_id = j.job_id ∧
    (jobGen j context depends_event depends_on).1.script = j.script ∧
    (jobGen j context depends_event depends_on).1.profile = j.profile :=
  ⟨rfl, rfl, rfl⟩

theorem generateSeq_stops (submit : SJob → Option String) :
    ∀ (pre : List SJob) (jk : SJob) (post : List SJob) (dep : Option String),
      (∀ j ∈ pre, submit j ≠ none) → submit jk = none →
      (generateSeq submit (pre.map SNode.job ++ SNode.job jk :: post.map SNode.job) dep).2 =
        .error .submissionError ∧
      (generateSeq submit
        (pre.map SNode.job ++ SNode.job jk :: post.map SNode.job) dep).1.drop
          (pre.length + 1) = post.map SNode.job := by
  intro pre
  induction pre with
  | nil =>
    intro jk post dep hpre hk
    refine ⟨?_, ?_⟩ <;>
      simp [generateSeq, generate, hk]
  | cons p ps ih =>
    intro jk post dep hpre hk
    have hp : submit p ≠ none := hpre p (List.mem_cons_self p ps)
    rcases hsp : submit p with _ | i
    · exact absurd hsp hp
    · obtain ⟨ih1, ih2⟩ := ih jk post (some i)
        (fun j hj => hpre j (List.mem_cons_of_mem p hj)) hk
      rcases hgs : generateSeq submit
          (ps.map SNode.job ++ SNode.job jk :: post.map SNode.job) (some i) with ⟨cs2, r⟩
      rw [hgs] at ih1 ih2
      have hred : generateSeq submit
          ((p :: ps).map SNode.job ++ SNode.job jk :: post.map SNode.job) dep =
          (SNode.job { p with external_id := some i, status := .submitted } :: cs2, r) := by
        simp only [List.map, List.cons_append, generateSeq, generate, hsp, List.append_eq, hgs]
      rw [hred]
      simp only at ih1 ih2
      refine ⟨ih1, ?_⟩
      simpa using ih2

/-- C6 (spec-modelled submission): in a `Sequential` of jobs where the
submissions before job `k` succeed and the submission of job `k` is rejected
(`SubmissionError`), the generation pass stops at `k`: the children after `k`
are returned exactly as given, so jobs that entered the pass Pending with no
external id are still Pending with no external id, never submitted. -/
theorem sequential_stops_on_failure (submit : SJob → Option String) (pre post : List SJob)
    (jk : SJob) (dep : Option String)
    (hpre : ∀ j ∈ pre, submit j ≠ none) (hk : submit jk = none)
    (hpost : ∀ j ∈ post, j.status = .pending ∧ j.external_id = none) :
    (generateSeq submit (pre.map SNode.job ++ SNode.job jk :: post.map SNode.job) dep).2 =
      .error .submissionError ∧
    ∀ c ∈ (generateSeq submit
        (pre.map SNode.job ++ SNode.job jk :: post.map SNode.job) dep).1.drop
          (pre.length + 1),
      ∃ j, c = SNode.job j ∧ j.status = .pending ∧ j.external_id = none := by
  obtain ⟨h1, h2⟩ := generateSeq_stops submit pre jk post dep hpre hk
  refine ⟨h1, ?_⟩
  intro c hc
  rw [h2] at hc
  rcases List.mem_map.mp hc with ⟨j, hj, rfl⟩
  exact ⟨j, rfl, (hpost j hj).1, (hpost j hj).2⟩

/-- Witness for C6: job "1" succeeds, job "2" is rejected, job "3" is left
Pending and unsubmitted. -/
theorem sequential_stops_on_failure_witness :
    (generateSeq submitW ([⟨"s", "p", some "1", none, .pending⟩].map SNode.job ++
      SNode.job ⟨"s", "p", some "2", none, .pending⟩ ::
      [⟨"s", "p", some "3", none, .pending⟩].map SNode.job) none).2 =
        .error .submissionError ∧
    ∀ c ∈ (generateSeq submitW ([⟨"s", "p", some "1", none, .pending⟩].map SNode.job ++
      SNode.job ⟨"s", "p", some "2", none, .pending⟩ ::
      [⟨"s", "p", some "3", none, .pending⟩].map SNode.job) none).1.drop
        (([⟨"s", "p", some "1", none, .pending⟩] : List SJob).length + 1),
      ∃ j, c = SNode.job j ∧ j.status = .pending ∧ j.external_id = none :=
  sequential_stops_on_failure submitW [⟨"s", "p", some "1", none, .pending⟩]
    [⟨"s", "p", some "3", none, .pending⟩] ⟨"s", "p", some "2", none, .pending⟩ none
    (by decide) rfl (by decide)

/-- C8 (amended, spec-modelled rerun): rerunning a tree in which every job
succeeded produces a tree with zero resubmittable jobs; the all-succeeded
tree is pruned to a single pass-through `skip` marker forwarding the prior
joined id, rather than a same-shape composite. -/
theorem rerun_all_succeeded (t : SNode) (h : allSucceeded t = true) :
    rerun t = .skip (priorId t) ∧ resubCount (rerun t) = 0 := by
  cases t with
  | job j =>
    rw [show allSucceeded (.job j) =
      (match j.status with | .succeeded => true | _ => false) from rfl] at h
    split at h
    · next heq =>
      have hr : rerun (.job j) = .skip j.external_id := by
        rw [show rerun (.job j) = (match j.status with
          | .succeeded => RNode.skip j.external_id
          | _ => RNode.job j) from rfl, heq]

      exact ⟨hr, by rw [hr]; rfl⟩
    · cases h
  | sequential n js =>
    rw [show allSucceeded (.sequential n js) = allSucceededList js from rfl] at h
    have hr : rerun (.sequential n js) = .skip (priorId (.sequential n js)) := by
      rw [show rerun (.sequential n js) =
        (if allSucceededList js then RNode.skip (priorId (.sequential n js))
         else .sequential n (rerunList js)) from rfl, if_pos h]
    exact ⟨hr, by rw [hr]; rfl⟩
  | parallel n js =>
    rw [show allSucceeded (.parallel n js) = allSucceededList js from rfl] at h
    have hr : rerun (.parallel n js) = .skip (priorId (.parallel n js)) := by
      rw [show rerun (.parallel n js) =
        (if allSucceededList js then RNode.skip (priorId (.parallel n js))
         else .parallel n (rerunList js)) from rfl, if_pos h]
    exact ⟨hr, by rw [hr]; rfl⟩

/-- Witness for C8 (amended): a parallel of one succeeded job reruns to a
pass-through with zero resubmittable jobs. -/
theorem rerun_all_succeeded_witness :
    rerun (.parallel "P" [.job ⟨"a", "b", some "j", some "9", .succeeded⟩]) =
      .skip (priorId (.parallel "P" [.job ⟨"a", "b", some "j", some "9", .succeeded⟩])) ∧
    resubCount (rerun (.parallel "P" [.job ⟨"a", "b", some "j", some "9", .succeeded⟩])) = 0 :=
  rerun_all_succeeded (.parallel "P" [.job ⟨"a", "b", some "j", some "9", .succeeded⟩])
    (by decide)

/-- Counterexample for C8 as stated: rerunning an all-succeeded `Sequential`
of one job yields the pass-through `skip` marker, not a `Sequential` of the
same composite shape. -/
theorem rerun_shape_counterexample :
    rerun (.sequential "S" [.job ⟨"a", "b", some "j1", some "1", .succeeded⟩]) =
      .skip (some "1") ∧
    ¬ ∃ js, rerun (.sequential "S" [.job ⟨"a", "b", some "j1", some "1", .succeeded⟩]) =
        RNode.sequential "S" js := by
  refine ⟨rfl, ?_⟩
  rintro ⟨js, hjs⟩
  rw [show rerun (.sequential "S" [.job ⟨"a", "b", some "j1", some "1", .succeeded⟩]) =
    RNode.skip (some "1") from rfl] at hjs
  cases hjs

theorem popField_mem {k : String} : ∀ {l : List (String × JVal)} {v rest},
    popField k l = some (v, rest) → ∀ p ∈ l, p ∈ rest ∨ p.1 = k := by
  intro l
  induction l with
  | nil => intro v rest h; simp [popField] at h
  | cons hd tl ih =>
    intro v rest h p hp
    obtain ⟨k1, v1⟩ := hd
    simp only [popField] at h
    split at h
    · next hkk =>
      simp only [Option.some.injEq, Prod.mk.injEq] at h
      obtain ⟨_, h2⟩ := h
      subst h2
      rcases List.mem_cons.mp hp with rfl | hptl
      · exact Or.inr hkk
      · exact Or.inl hptl
    · split at h
      · next v2 rest2 heq =>
        simp only [Option.some.injEq, Prod.mk.injEq] at h
        obtain ⟨_, h2⟩ := h
        subst h2
        rcases List.mem_cons.mp hp with rfl | hptl
        · exact Or.inl (List.mem_cons_self _ _)
        · rcases ih heq p hptl with hin | hkey
          · exact Or.inl (List.mem_cons_of_mem _ hin)
          · exact Or.inr hkey
      · simp at h

theorem popKw_mem (k : String) (d : JVal) (l : List (String × JVal)) :
    ∀ p ∈ l, p ∈ (popKw k d l).2 ∨ p.1 = k := by
  intro p hp
  rcases hpf : popField k l with _ | ⟨v, rest⟩
  · simp only [popKw, hpf]
    exact Or.inl hp
  · simp only [popKw, hpf]
    exact popField_mem hpf p hp

theorem buildJob_keys {r : List (String × JVal)} {n : JobNode} (h : buildJob r = .ok n) :
    ∀ p ∈ r, p.1 = "script" ∨ p.1 = "profile" ∨ p.1 = "job_id" ∨ p.1 = "slurm_jobid" := by
  intro p hp
  simp only [buildJob] at h
  split at h
  · cases h
  · next sc r1 heq1 =>
    split at h
    · cases h
    · next pf r2 heq2 =>
      split at h
      · next heq3 =>
        rcases popField_mem heq1 p hp with h1 | h1
        · rcases popField_mem heq2 p h1 with h2 | h2
          · rcases popKw_mem "job_id" JVal.vnull r2 p h2 with h3 | h3
            · rcases popKw_mem "slurm_jobid" JVal.vnull (popKw "job_id" JVal.vnull r2).2 p h3
                with h4 | h4
              · rw [heq3] at h4; cases h4
              · exact Or.inr (Or.inr (Or.inr h4))
            · exact Or.inr (Or.inr (Or.inl h3))
          · exact Or.inr (Or.inl h2)
        · exact Or.inl h1
      · cases h

theorem buildSeq_keys {jobs : List JobNode} {r : List (String × JVal)} {n : JobNode}
    (h : buildSeq jobs r = .ok n) : ∀ p ∈ r, p.1 = "name" := by
  intro p hp
  simp only [buildSeq] at h
  split at h
  · next heq =>
    rcases popKw_mem "name" (JVal.vstr "S") r p hp with h1 | h1
    · rw [heq] at h1; cases h1
    · exact h1
  · cases h

theorem buildPar_keys {jobs : List JobNode} {r : List (String × JVal)} {n : JobNode}
    (h : buildPar jobs r = .ok n) : ∀ p ∈ r, p.1 = "name" := by
  intro p hp
  simp only [buildPar] at h
  split at h
  · next heq =>
    rcases popKw_mem "name" (JVal.vstr "P") r p hp with h1 | h1
    · rw [heq] at h1; cases h1
    · exact h1
  · cases h

theorem buildPipeline_keys {d : JobNode} {r : List (String × JVal)} {n : JobNode}
    (h : buildPipeline d r = .ok n) : ∀ p ∈ r, p.1 = "name" ∨ p.1 = "job_id" := by
  intro p hp
  simp only [buildPipeline] at h
  split at h
  · cases h
  · next nm r1 heq1 =>
    split at h
    · next heq2 =>
      rcases popField_mem heq1 p hp with h1 | h1
      · rcases popKw_mem "job_id" JVal.vnull r1 p h1 with h2 | h2
        · rw [heq2] at h2; cases h2
        · exact Or.inr h2
      · exact Or.inl h1
    · cases h

theorem hasKey_false_of {k : String} {fields : List (String × JVal)}
    (h : ∀ p ∈ fields, p.1 ≠ k) : hasKey k (.vobj fields) = false := by
  rw [show hasKey k (.vobj fields) = fields.any (fun p => p.1 == k) from rfl,
    List.any_eq_false]
  intro p hp
  simp only [beq_iff_eq]
  exact h p hp

theorem popField_none_of {k : String} : ∀ {l : List (String × JVal)},
    (∀ p ∈ l, p.1 ≠ k) → popField k l = none := by
  intro l
  induction l with
  | nil => intro _; rfl
  | cons hd tl ih =>
    intro h
    obtain ⟨k1, v1⟩ := hd
    have h1 : k1 ≠ k := h (k1, v1) (List.mem_cons_self _ _)
    simp only [popField, if_neg h1, ih (fun p hp => h p (List.mem_cons_of_mem _ hp))]

theorem residual_decode {rest : List (String × JVal)}
    (hk : ∀ p ∈ rest, p.1 ≠ "type" ∧ p.1 ≠ "jobs" ∧ p.1 ≠ "definition") :
    hasKey "type" (.vobj rest) = false ∧ hasKey "jobs" (.vobj rest) = false ∧
    hasKey "definition" (.vobj rest) = false ∧
    (fromJsonM (.vobj rest)).1 = .error (.keyError "type") :=
  ⟨hasKey_false_of (fun p hp => (hk p hp).1),
   hasKey_false_of (fun p hp => (hk p hp).2.1),
   hasKey_false_of (fun p hp => (hk p hp).2.2),
   by rw [fromJsonM_noType (popField_none_of (fun p hp => (hk p hp).1))]⟩

/-- C10: `JobNode.from_json` destructively mutates the record passed to it:
after a successful decode the record has lost its `type` key (and any `jobs`
or `definition` key), so decoding the same in-memory record a second time
raises `KeyError` on `data.pop("type")` instead of succeeding with the same
result. -/
theorem from_json_mutates_record (fields : List (String × JVal)) (n : JobNode) (s2 : JVal)
    (h : fromJsonM (.vobj fields) = (.ok n, s2)) :
    hasKey "type" s2 = false ∧ hasKey "jobs" s2 = false ∧ hasKey "definition" s2 = false ∧
    (fromJsonM s2).1 = .error (.keyError "type") := by
  rcases hpt : popField "type" fields with _ | ⟨t, rest⟩
  · rw [fromJsonM_noType hpt] at h
    simp at h
  · rw [fromJsonM_typed hpt] at h
    rw [decodeTyped.eq_def] at h
    split at h
    · injection h with hb hs2
      subst hs2
      exact residual_decode (fun p hp => by
        rcases buildJob_keys hb p hp with h1 | h1 | h1 | h1 <;> rw [h1] <;>
          exact ⟨by decide, by decide, by decide⟩)
    · split at h
      · injection h with hb hs2; cases hb
      · split at h
        · next jobs heq3 =>
          injection h with hb hs2
          subst hs2
          exact residual_decode (fun p hp => by
            rw [buildSeq_keys hb p hp]
            exact ⟨by decide, by decide, by decide⟩)
        · injection h with hb hs2; cases hb
      · injection h with hb hs2; cases hb
    · split at h
      · injection h with hb hs2; cases hb
      · split at h
        · next jobs heq3 =>
          injection h with hb hs2
          subst hs2
          exact residual_decode (fun p hp => by
            rw [buildPar_keys hb p hp]
            exact ⟨by decide, by decide, by decide⟩)
        · injection h with hb hs2; cases hb
      · injection h with hb hs2; cases hb
    · split at h
      · injection h with hb hs2; cases hb
      · split at h
        · next dn st heq3 =>
          injection h with hb hs2
          subst hs2
          exact residual_decode (fun p hp => by
            rcases buildPipeline_keys hb p hp with h1 | h1 <;> rw [h1] <;>
              exact ⟨by decide, by decide, by decide⟩)
        · injection h with hb hs2; cases hb
    · injection h with hb hs2; cases hb

/-- Witness for C10: decoding a job record removes its `type` key, and the
mutated record no longer decodes. -/
theorem from_json_mutates_record_witness :
    hasKey "type" (.vobj [("script", .vstr "a"), ("profile", .vstr "b")]) = false ∧
    hasKey "jobs" (.vobj [("script", .vstr "a"), ("profile", .vstr "b")]) = false ∧
    hasKey "definition" (.vobj [("script", .vstr "a"), ("profile", .vstr "b")]) = false ∧
    (fromJsonM (.vobj [("script", .vstr "a"), ("profile", .vstr "b")])).1 =
      .error (.keyError "type") :=
  from_json_mutates_record
    [("type", .vstr "job"), ("script", .vstr "a"), ("profile", .vstr "b")]
    (.job ⟨.vstr "a", .vstr "b", .vnull, .vnull⟩)
    (.vobj [("script", .vstr "a"), ("profile", .vstr "b")])
    (by
      have e1 : popField "type" [("type", JVal.vstr "job"), ("script", JVal.vstr "a"),
          ("profile", JVal.vstr "b")] =
          some (.vstr "job", [("script", JVal.vstr "a"), ("profile", JVal.vstr "b")]) := rfl
      exact (fromJsonM_typed e1).trans rfl)
